import Mathlib

/-
Verification of the ModSimPy fixed-step simulation code (chapter 18,
"Glucose and Insulin", and the population-growth chapter) against its
natural-language specification.

The Python source is embedded shallowly: real-valued quantities become
rationals (ℚ), the pandas `State`/`System` objects become Lean structures,
and `run_simulation`'s loop over a `TimeFrame` becomes explicit recursion
producing a list of (time, state) rows.  Library failures (numpy/pandas
exceptions) are modelled by `Option`: `none` means the call raised.
-/

namespace ModSim

/-- Rounding to the nearest integer, as Python's `round` behaves on the
rational inputs used here (no exact .5 ties arise in any statement below). -/
def rnd (q : ℚ) : ℤ := ⌊q + 1/2⌋

/-- Modelled from the spec: `linrange` lives in `modsim.py`, which is not
under src/.  Per §4.1 the fixed-step integrator takes uniform steps
`t_(i+1) = t_i + dt`, stopping once `t_i` would exceed `t_end` by more than
a half step, so the sample times are `t_0 + i*dt` for
`i = 0 .. round((t_end - t_0)/dt)`.  A zero step (division by zero) or a
negative rounded sample count (rejected by the array library) raises, which
is modelled as `none`. -/
def linrange (start stop step : ℚ) : Option (List ℚ) :=
  if step = 0 then none
  else
    let n : ℤ := rnd ((stop - start) / step)
    if n < 0 then none
    else some ((List.range (n.toNat + 1)).map fun (i : ℕ) => start + step * (i : ℚ))

/-- The glucose-model `State(G=..., X=...)` object: an ordered pair of the
two named components used throughout chapter 18. -/
structure State where
  G : ℚ
  X : ℚ
  deriving DecidableEq

/-- The `System` object built by `make_system`: initial state, the parameter
tuple `(G0, k1, k2, k3)`, basal levels `Gb` and `Ib`, the interpolated
insulin signal `I`, and the time grid data `t_0`, `t_end`, `dt`. -/
structure System where
  init : State
  params : ℚ × ℚ × ℚ × ℚ
  Gb : ℚ
  Ib : ℚ
  I : ℚ → ℚ
  t_0 : ℚ
  t_end : ℚ
  dt : ℚ

/-- `update_func(t, state, system)` from chapter 18: computes the
derivatives of the minimal model and returns
`State(G + dGdt*dt, X + dXdt*dt)`. -/
def update_func (t : ℚ) (state : State) (system : System) : State :=
  match system.params with
  | (_G0, k1, k2, k3) =>
    let dGdt := -k1 * (state.G - system.Gb) - state.X * state.G
    let dXdt := k3 * (system.I t - system.Ib) - k2 * state.X
    { G := state.G + dGdt * system.dt, X := state.X + dXdt * system.dt }

/-- `slope_func(t, state, system)` from chapter 18: the same right-hand
side, returned as the pair of derivatives `(dGdt, dXdt)`. -/
def slope_func (t : ℚ) (state : State) (system : System) : ℚ × ℚ :=
  match system.params with
  | (_G0, k1, k2, k3) =>
    let dGdt := -k1 * (state.G - system.Gb) - state.X * state.G
    let dXdt := k3 * (system.I t - system.Ib) - k2 * state.X
    (dGdt, dXdt)

/-- The loop body of `run_simulation`:
`for i in range(n-1): frame.iloc[i+1] = update_func(t_array[i], frame.iloc[i], system)`.
Given the list of sample times and the row stored at the first of them, it
returns the list of frame rows together with the number of times the update
function was invoked (one invocation per loop iteration). -/
def euler_loop {σ : Type} (uf : ℚ → σ → σ) : List ℚ → σ → List σ × ℕ
  | [], _ => ([], 0)
  | [_t], s => ([s], 0)
  | t :: t2 :: rest, s =>
    let p := euler_loop uf (t2 :: rest) (uf t s)
    (s :: p.1, p.2 + 1)

/-- `run_simulation(system, update_func)` from chapter 18: builds the time
grid with `linrange`, seeds row 0 with `system.init`, fills each later row
by applying the update function to the previous row, and returns the frame
as the list of (time, row) pairs. -/
def run_simulation (system : System) (uf : ℚ → State → System → State) :
    Option (List (ℚ × State)) :=
  (linrange system.t_0 system.t_end system.dt).map fun t_array =>
    t_array.zip (euler_loop (fun t s => uf t s system) t_array system.init).1

/-- The number of update-function invocations performed by the
`run_simulation` loop (the loop runs `n - 1` times, calling it once per
iteration). -/
def update_calls (system : System) (uf : ℚ → State → System → State) :
    Option ℕ :=
  (linrange system.t_0 system.t_end system.dt).map fun t_array =>
    (euler_loop (fun t s => uf t s system) t_array system.init).2

/-- An update function realising a constant slope `(c1, c2)`: the Euler
advance `state + (c1, c2) * dt`, the shape `update_func` takes when its
derivative expressions are constant. -/
def const_update (c1 c2 : ℚ) : ℚ → State → System → State :=
  fun _t s sys => { G := s.G + c1 * sys.dt, X := s.X + c2 * sys.dt }

/-- The population chapter's constant-growth loop
`for t in range(t_0, t_end): results[t+1] = results[t] + annual_growth`:
the value of `results` at label `t_0 + k`. -/
def growth_series (p_0 annual_growth : ℚ) : ℕ → ℚ
  | 0 => p_0
  | k + 1 => growth_series p_0 annual_growth k + annual_growth

/-- The mathematical Euler iteration along the uniform grid: state number
`j` of the sequence that starts at `s0` and applies the update at time
`t0 + step * i` to pass from state `i` to state `i + 1`. -/
def euler_iter {σ : Type} (uf : ℚ → σ → σ) (t0 step : ℚ) (s0 : σ) : ℕ → σ
  | 0 => s0
  | j + 1 => uf (t0 + step * (j : ℚ)) (euler_iter uf t0 step s0 j)

/-- The closed form of the trajectory `run_simulation` produces: sample `j`
is the pair of time `t0 + step * j` and the `j`-th Euler iterate. -/
def euler_traj {σ : Type} (uf : ℚ → σ → σ) (t0 step : ℚ) (s0 : σ) (m : ℕ) :
    List (ℚ × σ) :=
  (List.range (m + 1)).map fun (j : ℕ) => (t0 + step * (j : ℚ), euler_iter uf t0 step s0 j)

/-- A minimal concrete `System` used as a test input: initial state (1, 0),
all parameters zero (so the update leaves the state unchanged), and the given
time grid. -/
def probe_system (t0 te d : ℚ) : System :=
  { init := ⟨1, 0⟩, params := (0, 0, 0, 0), Gb := 0, Ib := 0, I := fun _ => 0,
    t_0 := t0, t_end := te, dt := d }

/-- The concrete glucose scenario of the spec's §8: initial state (270, 0),
parameters `k1 = k2 = 0.02`, `k3 = 1.5e-5`, basal levels `Gb = 92`,
`Ib = 11`, constant insulin signal `I(t) = 11`, integrated from 0 to 10 with
`dt = 2`. -/
def glucose_system : System :=
  { init := ⟨270, 0⟩, params := (270, 1/50, 1/50, 3/200000),
    Gb := 92, Ib := 11, I := fun _ => 11, t_0 := 0, t_end := 10, dt := 2 }

/-- The frame `run_simulation` produces for `glucose_system`, written out
exactly (denominators are powers of 25 because each step multiplies G by
24/25 and adds 92/25). -/
def glucose_traj : List (ℚ × State) :=
  [(0, ⟨270, 0⟩), (2, ⟨6572/25, 0⟩), (4, ⟨160028/625, 0⟩),
   (6, ⟨3898172/15625, 0⟩), (8, ⟨94993628/390625, 0⟩), (10, ⟨2315784572/9765625, 0⟩)]

/-- A state as pandas stores it: the ordered list of (component name, value)
pairs, used to reason about the column-name invariant. -/
abbrev StateN := List (String × ℚ)

/-- The `System` object with the named-state representation. -/
structure SystemN where
  init : StateN
  params : ℚ × ℚ × ℚ × ℚ
  Gb : ℚ
  Ib : ℚ
  I : ℚ → ℚ
  t_0 : ℚ
  t_end : ℚ
  dt : ℚ

/-- `update_func` over named states: `G, X = state` unpacks the two stored
values positionally, and the result is `State(G=..., X=...)`, whose index is
the name list G then X.  The fallthrough branch stands for the unpacking
error Python raises on a state that does not hold exactly two values; the
name-invariant theorem shows it is never taken on a well-formed run. -/
def update_funcN (t : ℚ) (state : StateN) (system : SystemN) : StateN :=
  match system.params, state with
  | (_G0, k1, k2, k3), [(_, G), (_, X)] =>
    let dGdt := -k1 * (G - system.Gb) - X * G
    let dXdt := k3 * (system.I t - system.Ib) - k2 * X
    [("G", G + dGdt * system.dt), ("X", X + dXdt * system.dt)]
  | _, _ => []

/-- `run_simulation` over named states (same loop as `run_simulation`). -/
def run_simulationN (system : SystemN) (uf : ℚ → StateN → SystemN → StateN) :
    Option (List (ℚ × StateN)) :=
  (linrange system.t_0 system.t_end system.dt).map fun t_array =>
    t_array.zip (euler_loop (fun t s => uf t s system) t_array system.init).1

/-- The glucose dataframe as `make_system` consumes it: a time index and the
glucose and insulin series. -/
structure DataFrameD where
  index : List ℚ
  glucose : ℚ → ℚ
  insulin : ℚ → ℚ

/-- Modelled from the spec: `interpolate` lives in `modsim.py`, which is not
under src/; the spec (§6) treats the interpolated series purely as an opaque
callable `t -> real`, so the model passes the series function through. -/
def interpolateD (f : ℚ → ℚ) : ℚ → ℚ := f

/-- `make_system(params, data)` from chapter 18: takes `t_0`/`t_end` from
the data index, the basal levels from the series at `t_0`, interpolates the
insulin series, and builds `init = State(G=G0, X=0)` with `dt = 2`. -/
def make_systemN (params : ℚ × ℚ × ℚ × ℚ) (data : DataFrameD) : SystemN :=
  match params with
  | (G0, k1, k2, k3) =>
    let t0 := data.index.headD 0
    let tend := data.index.getLastD 0
    { init := [("G", G0), ("X", 0)], params := (G0, k1, k2, k3),
      Gb := data.glucose t0, Ib := data.insulin t0, I := interpolateD data.insulin,
      t_0 := t0, t_end := tend, dt := 2 }

/-- A minimal concrete named-state system used as a test input. -/
def probe_systemN : SystemN :=
  { init := [("G", 1), ("X", 0)], params := (0, 0, 0, 0), Gb := 0, Ib := 0,
    I := fun _ => 0, t_0 := 0, t_end := 2, dt := 2 }

/-- Modelled from the spec: configuration of the AdaptiveStepIntegrator of
§4.2, a component the repository never implements (the notebooks only
describe the Dormand-Prince idea in prose).  `order` is the method's formal
order; `safety_factor`, `min_scale` and `max_scale` govern the step-size
update rule. -/
structure AdaptiveConfig where
  order : ℕ
  safety_factor : ℝ
  min_scale : ℝ
  max_scale : ℝ

/-- Modelled from the spec: the per-run mutable state of the adaptive
integrator — current time, current step size, the accepted sample list, and
the accepted/rejected step counters. -/
structure AdaptiveState where
  t : ℝ
  dt : ℝ
  samples : List (ℝ × ℝ)
  nAccepted : ℕ
  nRejected : ℕ

/-- Clamping a value into the interval from `lo` to `hi`. -/
def clampR (lo hi x : ℝ) : ℝ := max lo (min hi x)

/-- Modelled from the spec: steps 3-5 of the adaptive integrator's per-step
algorithm (§4.2), given the already-computed mixed-norm error estimate
`err` and higher-order estimate `y_hi`: accept (advance `t`, append the
sample, bump the accepted count) when `err ≤ 1`, otherwise reject (bump the
rejected count), and in both cases rescale the step size by
`clamp(safety_factor * err^(-1/order), min_scale, max_scale)`. -/
noncomputable def adaptive_step_update (cfg : AdaptiveConfig) (err y_hi : ℝ)
    (st : AdaptiveState) : AdaptiveState :=
  let scale := clampR cfg.min_scale cfg.max_scale
    (cfg.safety_factor * Real.rpow err (-1 / (cfg.order : ℝ)))
  if err ≤ 1 then
    { t := st.t + st.dt, dt := st.dt * scale,
      samples := st.samples ++ [(st.t + st.dt, y_hi)],
      nAccepted := st.nAccepted + 1, nRejected := st.nRejected }
  else
    { st with dt := st.dt * scale, nRejected := st.nRejected + 1 }

/-- Concrete adaptive configuration used as a test input (the spec's example
values: order 2, safety factor 0.9, scale bounds 0.2 and 5). -/
noncomputable def adaptive_probe_config : AdaptiveConfig :=
  { order := 2, safety_factor := 9/10, min_scale := 1/5, max_scale := 5 }

/-- Concrete adaptive run state used as a test input. -/
def adaptive_probe_state : AdaptiveState :=
  { t := 0, dt := 1, samples := [], nAccepted := 0, nRejected := 0 }

/-! ### Structural lemmas about the loop and the produced trajectory -/

/-- Shifting the Euler iteration by one step: iterate `j + 1` from `s0` is
iterate `j` from the once-updated state on the grid starting one step later. -/
theorem euler_iter_shift {σ : Type} (uf : ℚ → σ → σ) (t0 step : ℚ) (s0 : σ) :
    ∀ j : ℕ, euler_iter uf t0 step s0 (j + 1) =
      euler_iter uf (t0 + step) step (uf t0 s0) j
  | 0 => by simp [euler_iter]
  | j + 1 => by
    rw [euler_iter, euler_iter_shift uf t0 step s0 j, euler_iter]
    congr 1
    push_cast
    ring

/-- Unfolding one iteration of the simulation loop. -/
theorem euler_loop_cons {σ : Type} (uf : ℚ → σ → σ) (t : ℚ) (rest : List ℚ) (s : σ) :
    (euler_loop uf (t :: rest) s).1 = s :: (euler_loop uf rest (uf t s)).1 := by
  cases rest <;> simp [euler_loop]

/-- The loop invokes the update function once per iteration, i.e. one time
fewer than there are grid points. -/
theorem euler_loop_snd {σ : Type} (uf : ℚ → σ → σ) :
    ∀ (ts : List ℚ) (s : σ), (euler_loop uf ts s).2 = ts.length - 1
  | [], _ => rfl
  | [_], _ => rfl
  | t :: t2 :: rest, s => by
    have ih := euler_loop_snd uf (t2 :: rest) (uf t s)
    simp [euler_loop, ih]

/-- On the uniform grid, the rows the loop builds are exactly the Euler
iterates. -/
theorem euler_loop_spec {σ : Type} (uf : ℚ → σ → σ) (step : ℚ) :
    ∀ (m : ℕ) (t0 : ℚ) (s0 : σ),
      (euler_loop uf ((List.range (m + 1)).map fun (i : ℕ) => t0 + step * (i : ℚ)) s0).1 =
        (List.range (m + 1)).map fun (j : ℕ) => euler_iter uf t0 step s0 j
  | 0, t0, s0 => by simp [euler_loop, euler_iter, List.range_succ]
  | m + 1, t0, s0 => by
    rw [List.range_succ_eq_map (m + 1)]
    simp only [List.map_cons, List.map_map]
    rw [euler_loop_cons]
    have hf : ((fun (i : ℕ) => t0 + step * (i : ℚ)) ∘ Nat.succ) =
        fun (i : ℕ) => (t0 + step) + step * (i : ℚ) := by
      funext i
      simp only [Function.comp]
      push_cast
      ring
    have hg : ((fun (j : ℕ) => euler_iter uf t0 step s0 j) ∘ Nat.succ) =
        fun (j : ℕ) => euler_iter uf (t0 + step) step (uf t0 s0) j := by
      funext j
      simp only [Function.comp]
      exact euler_iter_shift uf t0 step s0 j
    rw [hf, hg]
    have hs : uf (t0 + step * ((0 : ℕ) : ℚ)) s0 = uf t0 s0 := by norm_num
    rw [hs, euler_loop_spec uf step m (t0 + step) (uf t0 s0)]
    norm_num
    rfl

/-- `run_simulation` in closed form: on a valid grid it returns exactly the
Euler trajectory. -/
theorem run_simulation_char (sys : System) (uf : ℚ → State → System → State)
    (hstep : sys.dt ≠ 0) (hn : 0 ≤ rnd ((sys.t_end - sys.t_0) / sys.dt)) :
    run_simulation sys uf =
      some (euler_traj (fun t s => uf t s sys) sys.t_0 sys.dt sys.init
        ((rnd ((sys.t_end - sys.t_0) / sys.dt)).toNat)) := by
  rw [run_simulation, linrange, if_neg hstep]
  simp only [if_neg (not_lt.mpr hn), Option.map_some']
  congr 1
  rw [euler_loop_spec, euler_traj, List.zip_map']

/-- Inversion: whenever `run_simulation` returns a frame, the step was
nonzero, the rounded step count nonnegative, and the frame is the Euler
trajectory. -/
theorem run_simulation_inv (sys : System) (uf : ℚ → State → System → State)
    (traj : List (ℚ × State)) (h : run_simulation sys uf = some traj) :
    sys.dt ≠ 0 ∧ 0 ≤ rnd ((sys.t_end - sys.t_0) / sys.dt) ∧
      traj = euler_traj (fun t s => uf t s sys) sys.t_0 sys.dt sys.init
        ((rnd ((sys.t_end - sys.t_0) / sys.dt)).toNat) := by
  by_cases h1 : sys.dt = 0
  · rw [run_simulation, linrange, if_pos h1] at h
    cases h
  by_cases h2 : rnd ((sys.t_end - sys.t_0) / sys.dt) < 0
  · rw [run_simulation, linrange, if_neg h1] at h
    simp only [if_pos h2] at h
    cases h
  refine ⟨h1, not_lt.mp h2, ?_⟩
  rw [run_simulation_char sys uf h1 (not_lt.mp h2)] at h
  exact (Option.some_injective _ h).symm

theorem euler_traj_length {σ : Type} (uf : ℚ → σ → σ) (t0 step : ℚ) (s0 : σ) (m : ℕ) :
    (euler_traj uf t0 step s0 m).length = m + 1 := by
  simp [euler_traj]

theorem euler_traj_get {σ : Type} (uf : ℚ → σ → σ) (t0 step : ℚ) (s0 : σ) (m : ℕ)
    (j : ℕ) (h : j < (euler_traj uf t0 step s0 m).length) :
    (euler_traj uf t0 step s0 m).get ⟨j, h⟩ =
      (t0 + step * (j : ℚ), euler_iter uf t0 step s0 j) := by
  simp [euler_traj, List.get_eq_getElem, List.getElem_map, List.getElem_range]

theorem euler_traj_mem {σ : Type} (uf : ℚ → σ → σ) (t0 step : ℚ) (s0 : σ) (m : ℕ)
    (p : ℚ × σ) (hp : p ∈ euler_traj uf t0 step s0 m) :
    ∃ j, j ≤ m ∧ p = (t0 + step * (j : ℚ), euler_iter uf t0 step s0 j) := by
  simp only [euler_traj, List.mem_map, List.mem_range] at hp
  obtain ⟨j, hj, rfl⟩ := hp
  exact ⟨j, Nat.lt_succ_iff.mp hj, rfl⟩

/-- `update_func` is the Euler advance of `slope_func`: both read the same
parameter tuple and compute the same derivative expressions. -/
theorem update_func_euler (t : ℚ) (s : State) (sys : System) :
    update_func t s sys =
      { G := s.G + sys.dt * (slope_func t s sys).1,
        X := s.X + sys.dt * (slope_func t s sys).2 } := by
  rcases hp : sys.params with ⟨a, b, c, d⟩
  simp only [update_func, slope_func, hp, State.mk.injEq]
  constructor <;> ring

/-- Rounding an exact natural number returns it. -/
theorem rnd_natCast (k : ℕ) : rnd (k : ℚ) = (k : ℤ) := by
  rw [rnd, Int.floor_eq_iff]
  constructor
  · push_cast
    linarith
  · push_cast
    linarith

/-- Evaluating `linrange` when the rounded step count is the natural number
`k`. -/
theorem linrange_eval (start stop step : ℚ) (k : ℕ) (hstep : step ≠ 0)
    (hr : rnd ((stop - start) / step) = (k : ℤ)) :
    linrange start stop step =
      some ((List.range (k + 1)).map fun (i : ℕ) => start + step * (i : ℚ)) := by
  rw [linrange, if_neg hstep]
  simp only [hr]
  rw [if_neg (by exact not_lt.mpr (Int.natCast_nonneg k)), Int.toNat_natCast]

/-- Evaluating `run_simulation` when the rounded step count is the natural
number `k`. -/
theorem run_simulation_eval (sys : System) (uf : ℚ → State → System → State) (k : ℕ)
    (hstep : sys.dt ≠ 0) (hr : rnd ((sys.t_end - sys.t_0) / sys.dt) = (k : ℤ)) :
    run_simulation sys uf =
      some (euler_traj (fun t s => uf t s sys) sys.t_0 sys.dt sys.init k) := by
  rw [run_simulation_char sys uf hstep (by rw [hr]; exact Int.natCast_nonneg k), hr,
    Int.toNat_natCast]

/-- With a zero step, `linrange` divides by zero, so `run_simulation` fails
inside the library call. -/
theorem run_simulation_none_of_zero (sys : System) (uf : ℚ → State → System → State)
    (h : sys.dt = 0) : run_simulation sys uf = none := by
  rw [run_simulation, linrange, if_pos h]
  rfl

/-- With a negative rounded step count, the array library rejects the sample
count, so `run_simulation` fails inside the library call. -/
theorem run_simulation_none_of_neg (sys : System) (uf : ℚ → State → System → State)
    (hstep : sys.dt ≠ 0) (hr : rnd ((sys.t_end - sys.t_0) / sys.dt) < 0) :
    run_simulation sys uf = none := by
  rw [run_simulation, linrange, if_neg hstep]
  simp only [if_pos hr]
  rfl

/-- Closed form of the Euler iterates of a constant-slope update. -/
theorem const_iter (sys : System) (c1 c2 : ℚ) (t0 : ℚ) (s0 : State) :
    ∀ j : ℕ, euler_iter (fun t s => const_update c1 c2 t s sys) t0 sys.dt s0 j =
      { G := s0.G + c1 * sys.dt * (j : ℚ), X := s0.X + c2 * sys.dt * (j : ℚ) }
  | 0 => by simp [euler_iter]
  | j + 1 => by
    rw [euler_iter, const_iter sys c1 c2 t0 s0 j, const_update]
    simp only [State.mk.injEq]
    constructor <;> (push_cast; ring)

/-- Closed form of the constant-growth loop. -/
theorem growth_series_closed (p g : ℚ) : ∀ k : ℕ, growth_series p g k = p + g * (k : ℚ)
  | 0 => by simp [growth_series]
  | k + 1 => by
    rw [growth_series, growth_series_closed p g k]
    push_cast
    ring

/-- Whatever property the initial row has, and every update preserves, every
row the loop produces has. -/
theorem euler_loop_all {σ : Type} (P : σ → Prop) (uf : ℚ → σ → σ)
    (hpres : ∀ t s, P s → P (uf t s)) :
    ∀ (ts : List ℚ) (s : σ), P s → ∀ r ∈ (euler_loop uf ts s).1, P r
  | [], _, _, r, hr => by simp [euler_loop] at hr
  | [t], s, hs, r, hr => by
    simp [euler_loop] at hr
    subst hr
    exact hs
  | t :: t2 :: rest, s, hs, r, hr => by
    rw [euler_loop_cons] at hr
    rcases List.mem_cons.mp hr with rfl | hr2
    · exact hs
    · exact euler_loop_all P uf hpres (t2 :: rest) (uf t s) (hpres t s hs) r hr2

/-- `update_funcN` sends a state with component names G then X to a state
with component names G then X. -/
theorem update_funcN_names (sys : SystemN) (t : ℚ) (s : StateN)
    (hs : s.map Prod.fst = ["G", "X"]) :
    (update_funcN t s sys).map Prod.fst = ["G", "X"] := by
  rcases hp : sys.params with ⟨a, b, c, d⟩
  rcases s with _ | ⟨⟨n1, v1⟩, _ | ⟨⟨n2, v2⟩, _ | _⟩⟩ <;> simp_all [update_funcN, hp]

/-! ### Concrete runs used as test inputs -/

theorem probe_run_02 :
    run_simulation (probe_system 0 2 2) update_func = some [(0, ⟨1, 0⟩), (2, ⟨1, 0⟩)] := by
  rw [run_simulation_eval (probe_system 0 2 2) update_func 1
    (by norm_num [probe_system]) (by norm_num [rnd, probe_system])]
  norm_num [euler_traj, euler_iter, List.range_succ, probe_system, update_func, State.mk.injEq]

theorem probe_run_const :
    run_simulation (probe_system 0 2 1) (const_update 1 0) =
      some [(0, ⟨1, 0⟩), (1, ⟨2, 0⟩), (2, ⟨3, 0⟩)] := by
  rw [run_simulation_eval (probe_system 0 2 1) (const_update 1 0) 2
    (by norm_num [probe_system]) (by norm_num [rnd, probe_system])]
  norm_num [euler_traj, euler_iter, List.range_succ, probe_system, const_update,
    State.mk.injEq]

theorem probe_run_04 :
    run_simulation (probe_system 0 4 2) update_func =
      some [(0, ⟨1, 0⟩), (2, ⟨1, 0⟩), (4, ⟨1, 0⟩)] := by
  rw [run_simulation_eval (probe_system 0 4 2) update_func 2
    (by norm_num [probe_system]) (by norm_num [rnd, probe_system])]
  norm_num [euler_traj, euler_iter, List.range_succ, probe_system, update_func,
    State.mk.injEq]

theorem glucose_run :
    run_simulation glucose_system update_func = some glucose_traj := by
  rw [run_simulation_eval glucose_system update_func 5
    (by norm_num [glucose_system]) (by norm_num [rnd, glucose_system])]
  norm_num [euler_traj, euler_iter, List.range_succ, glucose_system, update_func,
    glucose_traj, State.mk.injEq]

theorem probe_runN :
    run_simulationN probe_systemN update_funcN =
      some [(0, [("G", 1), ("X", 0)]), (2, [("G", 1), ("X", 0)])] := by
  rw [run_simulationN, show probe_systemN.t_0 = 0 from rfl,
    show probe_systemN.t_end = 2 from rfl, show probe_systemN.dt = 2 from rfl,
    linrange_eval 0 2 2 1 (by norm_num) (by norm_num [rnd]), Option.map_some']
  norm_num [List.range_succ, euler_loop, update_funcN, probe_systemN]

/-! ### The claims -/

/-- C1: for every system with `dt > 0`, every trajectory `run_simulation`
returns with `update_func` advances by one Euler step between successive
samples: the time advances by exactly `dt`, and each state component is the
previous component plus `dt` times the corresponding component of
`slope_func` at the previous sample. -/
theorem run_simulation_step_eq (sys : System) (traj : List (ℚ × State))
    (hdt : 0 < sys.dt) (hrun : run_simulation sys update_func = some traj)
    (i : ℕ) (h : i + 1 < traj.length) :
    (traj.get ⟨i + 1, h⟩).1 = (traj.get ⟨i, Nat.lt_of_succ_lt h⟩).1 + sys.dt ∧
    (traj.get ⟨i + 1, h⟩).2.G = (traj.get ⟨i, Nat.lt_of_succ_lt h⟩).2.G +
      sys.dt * (slope_func (traj.get ⟨i, Nat.lt_of_succ_lt h⟩).1
        (traj.get ⟨i, Nat.lt_of_succ_lt h⟩).2 sys).1 ∧
    (traj.get ⟨i + 1, h⟩).2.X = (traj.get ⟨i, Nat.lt_of_succ_lt h⟩).2.X +
      sys.dt * (slope_func (traj.get ⟨i, Nat.lt_of_succ_lt h⟩).1
        (traj.get ⟨i, Nat.lt_of_succ_lt h⟩).2 sys).2 := by
  obtain ⟨h1, h2, htr⟩ := run_simulation_inv sys update_func traj hrun
  subst htr
  rw [euler_traj_get, euler_traj_get]
  refine ⟨?_, ?_, ?_⟩
  · push_cast
    ring
  all_goals
    rw [show euler_iter (fun t s => update_func t s sys) sys.t_0 sys.dt sys.init (i + 1) =
          update_func (sys.t_0 + sys.dt * (i : ℚ))
            (euler_iter (fun t s => update_func t s sys) sys.t_0 sys.dt sys.init i) sys
        from rfl]
    rw [update_func_euler]

/-- Witness for C1: on the probe system over time 0 to 2 with `dt = 2`, the
hypotheses hold and the theorem yields the time step between the two
samples. -/
theorem run_simulation_step_eq_witness :
    0 < (probe_system 0 2 2).dt ∧
    run_simulation (probe_system 0 2 2) update_func = some [(0, ⟨1, 0⟩), (2, ⟨1, 0⟩)] ∧
    (([(0, ⟨1, 0⟩), (2, ⟨1, 0⟩)] : List (ℚ × State)).get ⟨1, by norm_num⟩).1 =
      (([(0, ⟨1, 0⟩), (2, ⟨1, 0⟩)] : List (ℚ × State)).get ⟨0, by norm_num⟩).1 +
        (probe_system 0 2 2).dt :=
  ⟨by norm_num [probe_system], probe_run_02,
    (run_simulation_step_eq (probe_system 0 2 2) [(0, ⟨1, 0⟩), (2, ⟨1, 0⟩)]
      (by norm_num [probe_system]) probe_run_02 0 (by norm_num)).1⟩

/-- C2: with a constant-slope update, every sample of the trajectory equals
the initial state plus the slope times the elapsed time; and the
constant-growth loop of the population chapter has value
`p_0 + annual_growth * k` at the label `k` years after `t_0`. -/
theorem const_slope_linear (sys : System) (c1 c2 : ℚ) (traj : List (ℚ × State))
    (hdt : 0 < sys.dt) (hrun : run_simulation sys (const_update c1 c2) = some traj) :
    (∀ p ∈ traj, p.2.G = sys.init.G + c1 * (p.1 - sys.t_0) ∧
                 p.2.X = sys.init.X + c2 * (p.1 - sys.t_0)) ∧
    (∀ (p g : ℚ) (k : ℕ), growth_series p g k = p + g * (k : ℚ)) := by
  refine ⟨?_, fun p g k => growth_series_closed p g k⟩
  intro p hp
  obtain ⟨_h1, _h2, htr⟩ := run_simulation_inv sys (const_update c1 c2) traj hrun
  subst htr
  obtain ⟨j, _hj, rfl⟩ := euler_traj_mem _ _ _ _ _ p hp
  rw [const_iter]
  constructor <;> (simp only []; ring)

/-- Witness for C2: the probe system over time 0 to 2 with `dt = 1` and
constant slope (1, 0) produces the linear trajectory, and the growth loop
at three years equals the closed form. -/
theorem const_slope_linear_witness :
    0 < (probe_system 0 2 1).dt ∧
    run_simulation (probe_system 0 2 1) (const_update 1 0) =
      some [(0, ⟨1, 0⟩), (1, ⟨2, 0⟩), (2, ⟨3, 0⟩)] ∧
    growth_series 100 5 3 = 100 + 5 * ((3 : ℕ) : ℚ) :=
  ⟨by norm_num [probe_system], probe_run_const,
    (const_slope_linear (probe_system 0 2 1) 1 0 [(0, ⟨1, 0⟩), (1, ⟨2, 0⟩), (2, ⟨3, 0⟩)]
      (by norm_num [probe_system]) probe_run_const).2 100 5 3⟩

/-- Counterexample to C3: `run_simulation` performs no step validation, and
there is no `InvalidStepError` in the code.  With `dt = -100` over the
interval 0 to 10 the rounded sample count is zero, so the run returns a
one-row frame — a Trajectory — instead of failing. -/
theorem invalid_step_cex :
    (probe_system 0 10 (-100)).dt ≤ 0 ∧
    run_simulation (probe_system 0 10 (-100)) update_func = some [(0, ⟨1, 0⟩)] := by
  constructor
  · norm_num [probe_system]
  rw [run_simulation_eval (probe_system 0 10 (-100)) update_func 0
    (by norm_num [probe_system]) (by norm_num [rnd, probe_system])]
  norm_num [euler_traj, euler_iter, List.range_succ, probe_system, State.mk.injEq]

/-- C3 (amended): `run_simulation` has no `dt` validation and no dedicated
error kinds.  With `dt ≤ 0` it either silently returns a frame (when the
rounded step count is zero, e.g. `dt = -100` over the interval 0 to 10) or
aborts inside a library call — division by zero for `dt = 0`, a negative
sample count for `dt = -3` over the interval 0 to 10 — modelled by `none`. -/
theorem invalid_step_behavior :
    run_simulation (probe_system 0 10 (-100)) update_func = some [(0, ⟨1, 0⟩)] ∧
    run_simulation (probe_system 0 10 0) update_func = none ∧
    run_simulation (probe_system 0 10 (-3)) update_func = none := by
  refine ⟨?_, ?_, ?_⟩
  · rw [run_simulation_eval (probe_system 0 10 (-100)) update_func 0
      (by norm_num [probe_system]) (by norm_num [rnd, probe_system])]
    norm_num [euler_traj, euler_iter, List.range_succ, probe_system, State.mk.injEq]
  · exact run_simulation_none_of_zero _ _ rfl
  · refine run_simulation_none_of_neg _ _ (by norm_num [probe_system]) ?_
    norm_num [rnd, probe_system]

/-- C4 (amended): for every completed run with `t_0 < t_end`, the first pair
is the requested start time with the initial state — unconditionally; and
the last pair's time equals the requested end time provided the interval is
an exact whole-number multiple of `dt`. -/
theorem run_simulation_endpoints (sys : System) (uf : ℚ → State → System → State)
    (k : ℕ) (traj : List (ℚ × State))
    (hdt : 0 < sys.dt) (hlt : sys.t_0 < sys.t_end)
    (hrun : run_simulation sys uf = some traj) :
    traj.head? = some (sys.t_0, sys.init) ∧
    (sys.t_end = sys.t_0 + (k : ℚ) * sys.dt →
      traj.getLast?.map Prod.fst = some sys.t_end) := by
  obtain ⟨_h1, _h2, htr⟩ := run_simulation_inv sys uf traj hrun
  subst htr
  constructor
  · rw [euler_traj, List.range_succ_eq_map, List.map_cons, List.head?_cons]
    norm_num
    rfl
  · intro hmul
    have hk : rnd ((sys.t_end - sys.t_0) / sys.dt) = (k : ℤ) := by
      rw [hmul]
      have : (sys.t_0 + (k : ℚ) * sys.dt - sys.t_0) / sys.dt = (k : ℚ) := by
        field_simp
      rw [this, rnd_natCast]
    rw [hk, Int.toNat_natCast]
    rw [euler_traj, List.range_succ, List.map_append, List.map_singleton,
      List.getLast?_concat]
    simp only [Option.map_some']
    rw [hmul]
    norm_num [mul_comm]

/-- Witness for C4: the probe system over time 0 to 4 with `dt = 2` (an
exact multiple) starts at (0, init) and ends at time 4. -/
theorem run_simulation_endpoints_witness :
    0 < (probe_system 0 4 2).dt ∧
    (probe_system 0 4 2).t_0 < (probe_system 0 4 2).t_end ∧
    (probe_system 0 4 2).t_end =
      (probe_system 0 4 2).t_0 + ((2 : ℕ) : ℚ) * (probe_system 0 4 2).dt ∧
    ([(0, ⟨1, 0⟩), (2, ⟨1, 0⟩), (4, ⟨1, 0⟩)] : List (ℚ × State)).head? =
      some ((probe_system 0 4 2).t_0, (probe_system 0 4 2).init) ∧
    ([(0, ⟨1, 0⟩), (2, ⟨1, 0⟩), (4, ⟨1, 0⟩)] : List (ℚ × State)).getLast?.map Prod.fst =
      some (probe_system 0 4 2).t_end :=
  ⟨by norm_num [probe_system], by norm_num [probe_system], by norm_num [probe_system],
    (run_simulation_endpoints (probe_system 0 4 2) update_func 2 _
      (by norm_num [probe_system]) (by norm_num [probe_system]) probe_run_04).1,
    (run_simulation_endpoints (probe_system 0 4 2) update_func 2 _
      (by norm_num [probe_system]) (by norm_num [probe_system]) probe_run_04).2
      (by norm_num [probe_system])⟩

/-- Counterexample to C4 as stated: with `t_0 = 0 < t_end = 10` and
`dt = 100`, the rounded sample count is zero, so the completed run's last
(and only) pair has time 0, not the requested end time 10. -/
theorem run_simulation_endpoints_cex :
    (probe_system 0 10 100).t_0 < (probe_system 0 10 100).t_end ∧
    0 < (probe_system 0 10 100).dt ∧
    run_simulation (probe_system 0 10 100) update_func = some [(0, ⟨1, 0⟩)] ∧
    ([((0 : ℚ), (⟨1, 0⟩ : State))].getLast?.map Prod.fst = some (0 : ℚ)) ∧
    (0 : ℚ) ≠ (probe_system 0 10 100).t_end := by
  refine ⟨by norm_num [probe_system], by norm_num [probe_system], ?_, by simp,
    by norm_num [probe_system]⟩
  rw [run_simulation_eval (probe_system 0 10 100) update_func 0
    (by norm_num [probe_system]) (by norm_num [rnd, probe_system])]
  norm_num [euler_traj, euler_iter, List.range_succ, probe_system, State.mk.injEq]

/-- C5: `make_system` builds its initial state with the component names G
then X, and every row of a frame produced by `run_simulationN` with
`update_funcN` carries exactly the initial state's component names, in
order. -/
theorem run_names_invariant (sys : SystemN) (traj : List (ℚ × StateN))
    (hinit : sys.init.map Prod.fst = ["G", "X"])
    (hrun : run_simulationN sys update_funcN = some traj) :
    (∀ (params : ℚ × ℚ × ℚ × ℚ) (data : DataFrameD),
      (make_systemN params data).init.map Prod.fst = ["G", "X"]) ∧
    ∀ r ∈ traj, r.2.map Prod.fst = sys.init.map Prod.fst := by
  constructor
  · intro params data
    rcases params with ⟨a, b, c, d⟩
    simp [make_systemN]
  intro r hr
  rw [run_simulationN] at hrun
  rcases hl : linrange sys.t_0 sys.t_end sys.dt with _ | ts
  · rw [hl] at hrun
    cases hrun
  rw [hl, Option.map_some'] at hrun
  obtain rfl : traj = ts.zip (euler_loop (fun t s => update_funcN t s sys) ts sys.init).1 :=
    (Option.some_injective _ hrun).symm
  have hr2 := (List.of_mem_zip hr).2
  have := euler_loop_all (fun s => s.map Prod.fst = ["G", "X"])
    (fun t s => update_funcN t s sys)
    (fun t s hs => update_funcN_names sys t s hs) ts sys.init hinit r.2 hr2
  rw [this, hinit]

/-- Witness for C5: on the named probe system, the second row of the
produced frame has the initial state's component names. -/
theorem run_names_invariant_witness :
    probe_systemN.init.map Prod.fst = ["G", "X"] ∧
    ([("G", (1 : ℚ)), ("X", 0)] : StateN).map Prod.fst =
      probe_systemN.init.map Prod.fst :=
  ⟨rfl, (run_names_invariant probe_systemN
      [(0, [("G", 1), ("X", 0)]), (2, [("G", 1), ("X", 0)])] rfl probe_runN).2
      (2, [("G", 1), ("X", 0)]) (by simp)⟩

/-- C6: when `t_0 = t_end` and `dt > 0`, `run_simulation` returns exactly
the single-point trajectory with the initial state, and the update function
is invoked zero times. -/
theorem single_point_run (sys : System) (uf : ℚ → State → System → State)
    (hdt : 0 < sys.dt) (heq : sys.t_0 = sys.t_end) :
    run_simulation sys uf = some [(sys.t_0, sys.init)] ∧
    update_calls sys uf = some 0 := by
  have hr0 : rnd ((sys.t_end - sys.t_0) / sys.dt) = ((0 : ℕ) : ℤ) := by
    rw [← heq, sub_self, zero_div, rnd]
    norm_num
  constructor
  · rw [run_simulation_eval sys uf 0 (ne_of_gt hdt) hr0]
    simp [euler_traj, euler_iter, List.range_succ]
  · rw [update_calls, linrange_eval sys.t_0 sys.t_end sys.dt 0 (ne_of_gt hdt) hr0]
    simp only [Option.map_some']
    rw [euler_loop_snd]
    simp [List.range_succ]

/-- Witness for C6: the probe system with `t_0 = t_end = 5` and `dt = 2`
yields the single-point trajectory and zero update invocations. -/
theorem single_point_run_witness :
    0 < (probe_system 5 5 2).dt ∧
    (probe_system 5 5 2).t_0 = (probe_system 5 5 2).t_end ∧
    run_simulation (probe_system 5 5 2) update_func =
      some [((probe_system 5 5 2).t_0, (probe_system 5 5 2).init)] ∧
    update_calls (probe_system 5 5 2) update_func = some 0 :=
  ⟨by norm_num [probe_system], rfl,
    (single_point_run (probe_system 5 5 2) update_func (by norm_num [probe_system]) rfl).1,
    (single_point_run (probe_system 5 5 2) update_func (by norm_num [probe_system]) rfl).2⟩

/-- C7: on the concrete glucose scenario (initial state (270, 0), `dt = 2`,
constant insulin `I(t) = 11 = Ib`, integrated from 0 to 10), every sample
has X equal to 0, every G stays above `Gb = 92`, and the G values are
strictly decreasing along the trajectory. -/
theorem glucose_scenario :
    run_simulation glucose_system update_func = some glucose_traj ∧
    (∀ p ∈ glucose_traj, p.2.X = 0 ∧ 92 < p.2.G) ∧
    List.Chain' (fun p q : ℚ × State => q.2.G < p.2.G) glucose_traj := by
  refine ⟨glucose_run, ?_, ?_⟩
  · norm_num [glucose_traj]
  · norm_num [glucose_traj, List.chain'_cons]

/-- C8: `run_simulation` is a pure function of its arguments — the embedding
has no hidden global state, mirroring that the Python loop reads only its
parameters — so two calls on identical inputs return identical trajectories
and identical invocation counts. -/
theorem run_simulation_repeatable (sys : System) (uf : ℚ → State → System → State) :
    run_simulation sys uf = run_simulation sys uf ∧
    update_calls sys uf = update_calls sys uf :=
  ⟨rfl, rfl⟩

/-- C9: in the adaptive stepper modelled from the spec, a step with error
estimate at most 1 advances `t` by `dt`, appends the sample `(t + dt, y_hi)`
and bumps the accepted count, a step with error estimate above 1 leaves `t`
and the samples unchanged and bumps the rejected count, and in both cases
the next step size is
`dt * clamp(safety_factor * err^(-1/order), min_scale, max_scale)`. -/
theorem adaptive_step_contract (cfg : AdaptiveConfig) (err1 err2 y_hi : ℝ)
    (st : AdaptiveState) (h1 : err1 ≤ 1) (h2 : 1 < err2) :
    (adaptive_step_update cfg err1 y_hi st).t = st.t + st.dt ∧
    (adaptive_step_update cfg err1 y_hi st).samples =
      st.samples ++ [(st.t + st.dt, y_hi)] ∧
    (adaptive_step_update cfg err1 y_hi st).nAccepted = st.nAccepted + 1 ∧
    (adaptive_step_update cfg err1 y_hi st).dt =
      st.dt * clampR cfg.min_scale cfg.max_scale
        (cfg.safety_factor * Real.rpow err1 (-1 / (cfg.order : ℝ))) ∧
    (adaptive_step_update cfg err2 y_hi st).t = st.t ∧
    (adaptive_step_update cfg err2 y_hi st).samples = st.samples ∧
    (adaptive_step_update cfg err2 y_hi st).nRejected = st.nRejected + 1 ∧
    (adaptive_step_update cfg err2 y_hi st).dt =
      st.dt * clampR cfg.min_scale cfg.max_scale
        (cfg.safety_factor * Real.rpow err2 (-1 / (cfg.order : ℝ))) := by
  rw [adaptive_step_update, adaptive_step_update]
  rw [if_pos h1, if_neg (not_le.mpr h2)]
  simp

/-- Witness for C9: with the spec's example configuration, error 1/2 is
accepted (time advances) and error 2 is rejected (rejected count bumps). -/
theorem adaptive_step_contract_witness :
    ((1 : ℝ)/2 ≤ 1) ∧ (1 < (2 : ℝ)) ∧
    (adaptive_step_update adaptive_probe_config (1/2) 1 adaptive_probe_state).t =
      adaptive_probe_state.t + adaptive_probe_state.dt ∧
    (adaptive_step_update adaptive_probe_config 2 1 adaptive_probe_state).nRejected =
      adaptive_probe_state.nRejected + 1 :=
  ⟨by norm_num, by norm_num,
    (adaptive_step_contract adaptive_probe_config (1/2) 2 1 adaptive_probe_state
      (by norm_num) (by norm_num)).1,
    (adaptive_step_contract adaptive_probe_config (1/2) 2 1 adaptive_probe_state
      (by norm_num) (by norm_num)).2.2.2.2.2.2.1⟩

/-- C10: the single-step update function is exactly the Euler advance of
the slope function: `update_func t state sys` equals the state plus
`sys.dt` times `slope_func t state sys`, component-wise — the
difference-equation form and the derivative form of the glucose model
agree. -/
theorem update_func_is_euler_of_slope (t : ℚ) (s : State) (sys : System) :
    update_func t s sys =
      { G := s.G + sys.dt * (slope_func t s sys).1,
        X := s.X + sys.dt * (slope_func t s sys).2 } :=
  update_func_euler t s sys

end ModSim
